import Mathlib

/-!
Verification of the dataset acquisition and cache manager of the corgi
repository (`src/lib/db/utils.ts`), against the claims of its specification.

The TypeScript source is shallowly embedded: the filesystem is an explicit
association list from paths to file data, every effectful operation threads a
state (filesystem plus an event trace recording probes, copies,
decompressions, HTTP requests, directory creations and unlinks), fallible
operations return `Except`, and the network is an oracle mapping the redirect
count of each HTTP request to its response.  Paths are opaque strings:
`path.join` is modelled as separator concatenation (the claims never depend on
`..` normalisation).  The single-flight download slot (`downloadInProgress`)
is modelled separately as a transition system over the JavaScript event-loop
semantics of `getDatabasePath` lines 178–185.
-/

namespace Corgi

/-- A file's bytes together with whether the write that produced it ran to
completion (`complete = false` models a partially written file, e.g. a
truncated stream). -/
structure FileData where
  content : String
  complete : Bool
deriving DecidableEq

/-- The filesystem: an association list from paths to file data.  Lookup
takes the first binding, so writing is consing a fresh binding. -/
structure FS where
  files : List (String × FileData)
deriving DecidableEq

def FS.read (fs : FS) (p : String) : Option FileData :=
  (fs.files.find? (fun e => e.fst == p)).map Prod.snd

def FS.fileExists (fs : FS) (p : String) : Bool :=
  (fs.files.find? (fun e => e.fst == p)).isSome

def FS.write (fs : FS) (p : String) (d : FileData) : FS :=
  ⟨(p, d) :: fs.files⟩

def FS.remove (fs : FS) (p : String) : FS :=
  ⟨fs.files.filter (fun e => !(e.fst == p))⟩

/-- Events recorded by the effectful operations of `utils.ts`:
existence probes, directory creation, file copies, decompressions,
outgoing HTTP requests (indexed by redirect count) and unlinks. -/
inductive Ev where
  | probe (p : String)
  | mkdirEv (p : String)
  | copyEv (src dst : String)
  | decompressEv (src dst : String)
  | requestEv (redirectCount : Nat)
  | unlinkEv (p : String)
deriving DecidableEq

/-- The state threaded through the embedded operations: the filesystem and
the trace of events performed so far. -/
structure St where
  fs : FS
  trace : List Ev
deriving DecidableEq

def St.log (s : St) (e : Ev) : St := { s with trace := s.trace ++ [e] }

def St.write (s : St) (p : String) (d : FileData) : St :=
  { s with fs := s.fs.write p d }

def St.remove (s : St) (p : String) : St := { s with fs := s.fs.remove p }

/-- Fault-injection environment: whether the copy pipeline, the
decompression pipeline and the download's destination write stream run
without an I/O error. -/
structure Env where
  copyOk : Bool
  decompressOk : Bool
  writeOk : Bool
deriving DecidableEq

/-- Abstract model of gzip decompression of a complete gzip file. -/
def gunzip (s : String) : String := "<gunzip>" ++ s

/-- `decompressDatabase` (utils.ts lines 208–223): opens a write stream at
`dst` (creating/truncating the file there), then pipes
`read(src) → gunzip → dst`.  The pipeline fails when the source is missing or
incomplete, or on an injected stream fault; a failure leaves the truncated
file at `dst`. -/
def decompressDatabase (env : Env) (src dst : String) (s : St) :
    Except String Unit × St :=
  match ((s.log (Ev.decompressEv src dst)).write dst ⟨"", false⟩).fs.read src with
  | some d =>
    if d.complete && env.decompressOk then
      (Except.ok (),
        ((s.log (Ev.decompressEv src dst)).write dst ⟨"", false⟩).write dst
          ⟨gunzip d.content, true⟩)
    else
      (Except.error "decompression failed",
        (s.log (Ev.decompressEv src dst)).write dst ⟨"", false⟩)
  | none =>
    (Except.error "decompression source not found",
      (s.log (Ev.decompressEv src dst)).write dst ⟨"", false⟩)

/-- `copyFile` (utils.ts lines 231–242): opens a write stream at `dst`
(creating/truncating the file there), then pipes `read(src) → dst`. -/
def copyFile (env : Env) (src dst : String) (s : St) :
    Except String Unit × St :=
  match ((s.log (Ev.copyEv src dst)).write dst ⟨"", false⟩).fs.read src with
  | some d =>
    if env.copyOk then
      (Except.ok (),
        ((s.log (Ev.copyEv src dst)).write dst ⟨"", false⟩).write dst d)
    else
      (Except.error "copy failed",
        (s.log (Ev.copyEv src dst)).write dst ⟨"", false⟩)
  | none =>
    (Except.error "copy source not found",
      (s.log (Ev.copyEv src dst)).write dst ⟨"", false⟩)

/-- An HTTP response in the oracle: either a response with a status code, an
optional `Location` header and a body, or a request-level error. -/
inductive Resp where
  | resp (statusCode : Nat) (location : Option String) (body : String)
  | reqError (msg : String)
deriving DecidableEq

/-- JavaScript truthiness of `res.headers.location`: present and non-empty. -/
def locTruthy : Option String → Bool
  | none => false
  | some l => l != ""

/-- `cleanupAndReject` (utils.ts lines 276–284): close the write stream,
unlink the destination file, reject with the error. -/
def cleanupAndReject (msg : String) (destination : String) (s : St) :
    Except String Unit × St :=
  (Except.error msg, s.remove destination)

def tooManyRedirectsMsg : String :=
  "Too many redirects while downloading database"

/-- Whether a response takes the redirect branch of `doRequest`
(utils.ts lines 295–305): 3xx status with a truthy `Location` header. -/
def isRedirectResp : Resp → Bool
  | Resp.resp code loc _ => decide (300 ≤ code) && decide (code < 400) && locTruthy loc
  | Resp.reqError _ => false

/-- Whether a response is a 200 success. -/
def is200 : Resp → Bool
  | Resp.resp code _ _ => code == 200
  | Resp.reqError _ => false

/-- `doRequest` (utils.ts lines 286–329).  The source recurses on
`redirectCount + 1` under the guard `redirectCount > 5`; here the recursion is
made structural on a `fuel` argument.  `downloadFile` calls it with fuel `7`,
an upper bound on the recursion depth forced by the guard (the count starts
at 0 and the guard rejects at count 6), so the fuel-exhaustion branch is
unreachable and returns the same rejection as the guard. -/
def doRequest (env : Env) (responses : Nat → Resp) (destination : String) :
    Nat → Nat → St → Except String Unit × St
  | fuel, redirectCount, s =>
    if redirectCount > 5 then
      cleanupAndReject tooManyRedirectsMsg destination s
    else
      match fuel with
      | 0 => cleanupAndReject tooManyRedirectsMsg destination s
      | fuel2 + 1 =>
        match responses redirectCount with
        | Resp.reqError m =>
          cleanupAndReject m destination (s.log (Ev.requestEv redirectCount))
        | Resp.resp code loc body =>
          if 300 ≤ code ∧ code < 400 ∧ locTruthy loc = true then
            doRequest env responses destination fuel2 (redirectCount + 1)
              (s.log (Ev.requestEv redirectCount))
          else if code ≠ 200 then
            cleanupAndReject
              ("Failed to download database. HTTP status: " ++ toString code)
              destination (s.log (Ev.requestEv redirectCount))
          else
            (Except.ok (),
              (s.log (Ev.requestEv redirectCount)).write destination
                ⟨body, true⟩)

/-- `downloadFile` (utils.ts lines 272–337): opens the destination write
stream (creating the file), then runs the request loop starting at redirect
count 0; an injected write-stream fault triggers `cleanupAndReject`. -/
def downloadFile (env : Env) (responses : Nat → Resp) (url destination : String)
    (s : St) : Except String Unit × St :=
  if env.writeOk then
    doRequest env responses destination 7 0 (s.write destination ⟨"", false⟩)
  else
    cleanupAndReject "write stream error" destination
      (s.write destination ⟨"", false⟩)

/-- `downloadAndPrepareDatabase` (utils.ts lines 247–267): download to the
sibling `.gz` path; on download success decompress into the destination and,
in a `finally`, unlink the `.gz` artifact; the decompression outcome is
propagated. -/
def downloadAndPrepareDatabase (env : Env) (responses : Nat → Resp)
    (url destinationPath : String) (s : St) : Except String Unit × St :=
  match downloadFile env responses url (destinationPath ++ ".gz") s with
  | (Except.error e, s2) => (Except.error e, s2)
  | (Except.ok _, s2) =>
    let rs := decompressDatabase env (destinationPath ++ ".gz") destinationPath s2
    (rs.fst,
      (rs.snd.log (Ev.unlinkEv (destinationPath ++ ".gz"))).remove
        (destinationPath ++ ".gz"))

/-- `path.join` of two segments, modelled as separator concatenation (paths
are opaque keys; the claims do not depend on `..` normalisation). -/
def pjoin (a b : String) : String := a ++ "/" ++ b

/-- The ambient process context: `homedir()`, the module `DIRNAME`,
`process.cwd()`, and the three environment variables consulted. -/
structure Ctx where
  home : String
  dirname : String
  cwd : String
  envCorgiDbUrl : Option String
  envCorgiDatabaseUrl : Option String
  envDisableDbDownload : Option String
deriving DecidableEq

/-- `CACHE_DIR` (utils.ts line 38): `join(homedir(), ".corgi-cache")`. -/
def CACHE_DIR (ctx : Ctx) : String := pjoin ctx.home ".corgi-cache"

/-- `CACHE_DB_PATH` (utils.ts line 39): `join(CACHE_DIR, "vpic.lite.db")`. -/
def CACHE_DB_PATH (ctx : Ctx) : String := pjoin (CACHE_DIR ctx) "vpic.lite.db"

def DEFAULT_DB_DOWNLOAD_URL : String :=
  "https://github.com/cardog-ai/corgi/releases/latest/download/vpic.lite.db.gz"

/-- `getCompressedDbPaths` (utils.ts lines 47–66), in source order. -/
def getCompressedDbPaths (ctx : Ctx) : List String :=
  [ pjoin (pjoin (pjoin (pjoin (pjoin ctx.dirname "..") "..") "dist") "db")
      "vpic.lite.db.gz",
    pjoin ctx.dirname "vpic.lite.db.gz",
    pjoin (pjoin (pjoin ctx.dirname "..") "db") "vpic.lite.db.gz",
    pjoin (pjoin ctx.dirname "db") "vpic.lite.db.gz",
    pjoin (pjoin (pjoin ctx.dirname "dist") "db") "vpic.lite.db.gz" ]

/-- `getUncompressedDbPaths` (utils.ts lines 71–84), in source order. -/
def getUncompressedDbPaths (ctx : Ctx) : List String :=
  [ pjoin (pjoin (pjoin (pjoin ctx.dirname "..") "..") "db") "vpic.lite.db",
    pjoin (pjoin (pjoin ctx.dirname "..") "db") "vpic.lite.db",
    pjoin (pjoin ctx.cwd "db") "vpic.lite.db" ]

/-- The options object of `getDatabasePath`. -/
structure GetDbOptions where
  forceFresh : Bool
  databasePath : Option String
deriving DecidableEq

/-- The `for`-loop of utils.ts lines 133–142: `existsSync`-probe each
uncompressed candidate in order (each probe is logged); on the first existing
one, copy it to the cache path and return that copy's outcome; `none` when no
candidate exists. -/
def findAndCopy (env : Env) (paths : List String) (cachePath : String)
    (s : St) : Option (Except String Unit) × St :=
  match paths with
  | [] => (none, s)
  | p :: rest =>
    if s.fs.fileExists p then
      (some (copyFile env p cachePath (s.log (Ev.probe p))).fst,
       (copyFile env p cachePath (s.log (Ev.probe p))).snd)
    else findAndCopy env rest cachePath (s.log (Ev.probe p))

/-- The `for`-loop of utils.ts lines 146–155: `existsSync`-probe each
compressed candidate in order; on the first existing one, decompress it to
the cache path and return that decompression's outcome; `none` when no
candidate exists. -/
def findAndDecompress (env : Env) (paths : List String) (cachePath : String)
    (s : St) : Option (Except String Unit) × St :=
  match paths with
  | [] => (none, s)
  | p :: rest =>
    if s.fs.fileExists p then
      (some (decompressDatabase env p cachePath (s.log (Ev.probe p))).fst,
       (decompressDatabase env p cachePath (s.log (Ev.probe p))).snd)
    else findAndDecompress env rest cachePath (s.log (Ev.probe p))

def dbDisabledMsg : String :=
  "Database file not found and automatic download is disabled. Provide a databasePath option when creating the decoder."

def downloadFailedMsg (url : String) : String :=
  "Failed to download database automatically from " ++ url ++
    ". Provide a databasePath option or set CORGI_DB_URL to a reachable file."

/-- utils.ts lines 126–129: probe the cache directory and create it when it
is missing.  Directories are not files in this model, so `mkdirSync` only
logs its event; no claim depends on directory contents. -/
def ensureCacheDir (ctx : Ctx) (s : St) : St :=
  if s.fs.fileExists (CACHE_DIR ctx) then s.log (Ev.probe (CACHE_DIR ctx))
  else (s.log (Ev.probe (CACHE_DIR ctx))).log (Ev.mkdirEv (CACHE_DIR ctx))

/-- The download source URL (utils.ts lines 158–161):
`CORGI_DB_URL ?? CORGI_DATABASE_URL ?? DEFAULT_DB_DOWNLOAD_URL`
(nullish coalescing: an empty string set in the environment passes through). -/
def resolvedDownloadUrl (ctx : Ctx) : String :=
  (ctx.envCorgiDbUrl.orElse (fun _ => ctx.envCorgiDatabaseUrl)).getD
    DEFAULT_DB_DOWNLOAD_URL

/-- utils.ts lines 126–195, after the cached-file fast path failed:
cache-directory creation, the uncompressed then compressed candidate loops,
then the download attempt gated on `CORGI_DISABLE_DB_DOWNLOAD === "1"`, with
the inner `catch` replacing any download error by `downloadFailedMsg`.
Errors escaping here are the ones rethrown to the outer `catch`. -/
def searchAndFetch (ctx : Ctx) (env : Env) (responses : Nat → Resp) (s : St) :
    Except String String × St :=
  match findAndCopy env (getUncompressedDbPaths ctx) (CACHE_DB_PATH ctx)
      (ensureCacheDir ctx s) with
  | (some (Except.ok _), s2) => (Except.ok (CACHE_DB_PATH ctx), s2)
  | (some (Except.error e), s2) => (Except.error e, s2)
  | (none, s2) =>
    match findAndDecompress env (getCompressedDbPaths ctx) (CACHE_DB_PATH ctx)
        s2 with
    | (some (Except.ok _), s3) => (Except.ok (CACHE_DB_PATH ctx), s3)
    | (some (Except.error e), s3) => (Except.error e, s3)
    | (none, s3) =>
      if ctx.envDisableDbDownload = some "1" then
        (Except.error dbDisabledMsg, s3)
      else
        match downloadAndPrepareDatabase env responses
            (resolvedDownloadUrl ctx) (CACHE_DB_PATH ctx) s3 with
        | (Except.ok _, s4) => (Except.ok (CACHE_DB_PATH ctx), s4)
        | (Except.error _, s4) =>
          (Except.error (downloadFailedMsg (resolvedDownloadUrl ctx)), s4)

/-- The body of the outer `try` of `getDatabasePath` (utils.ts lines
107–195).  The guard `!options.forceFresh && existsSync(CACHE_DB_PATH)`
short-circuits: with `forceFresh` set the cache path is not probed. -/
def getDatabasePathBody (ctx : Ctx) (env : Env) (responses : Nat → Resp)
    (opts : GetDbOptions) (s : St) : Except String String × St :=
  if opts.forceFresh then searchAndFetch ctx env responses s
  else if s.fs.fileExists (CACHE_DB_PATH ctx) then
    (Except.ok (CACHE_DB_PATH ctx), s.log (Ev.probe (CACHE_DB_PATH ctx)))
  else searchAndFetch ctx env responses (s.log (Ev.probe (CACHE_DB_PATH ctx)))

/-- The outer `catch` of `getDatabasePath` (utils.ts lines 196–199): any
error thrown by the body is rethrown as
`Failed to prepare database: <message>`. -/
def prepareFailure : Except String String × St → Except String String × St
  | (Except.error e, s) => (Except.error ("Failed to prepare database: " ++ e), s)
  | r => r

/-- `getDatabasePath` (utils.ts lines 92–200).  `if (options.databasePath)`
is JavaScript truthiness: a supplied empty string is falsy and falls through
to the search. -/
def getDatabasePath (ctx : Ctx) (env : Env) (responses : Nat → Resp)
    (opts : GetDbOptions) (s : St) : Except String String × St :=
  match opts.databasePath with
  | some p =>
    if p = "" then prepareFailure (getDatabasePathBody ctx env responses opts s)
    else (Except.ok p, s)
  | none => prepareFailure (getDatabasePathBody ctx env responses opts s)

/-- Outcome of one `downloadAndPrepareDatabase` execution: the settled state
of its promise. -/
inductive Outcome where
  | success
  | failure (msg : String)
deriving DecidableEq

/-- State of the single-flight slot of utils.ts lines 42 and 178–185, under
JavaScript's single-threaded event-loop semantics.  `slot` is the
`downloadInProgress` variable (the id of the in-flight execution whose
promise it holds); `nextId` generates fresh execution ids; `running` are
executions started and not yet settled; `done` records each settled
execution's outcome; `waiting` are callers that executed lines 178–185 up to
`await downloadInProgress` and the execution they await; `observed` records
which outcome each caller saw when its `await` resumed. -/
structure SFState where
  slot : Option Nat
  nextId : Nat
  running : List Nat
  done : List (Nat × Outcome)
  waiting : List (Nat × Nat)
  observed : List (Nat × Nat × Outcome)
deriving DecidableEq

/-- The initial state: `downloadInProgress = null`, nothing running. -/
def SFInit : SFState := ⟨none, 0, [], [], [], []⟩

/-- Atomic steps of the single-flight protocol.  Lines 178–185 run without an
intervening suspension point up to the `await`, so a caller's arrival —
reading the slot, possibly starting an execution and storing its promise, and
registering on that promise — is one step.  The `.finally` callback runs when
the execution settles and before any `await` on the derived promise resumes,
so completion atomically records the outcome and nulls the slot; awaiting
callers resume later, each observing the settled outcome. -/
inductive SFStep : SFState → SFState → Prop where
  | arriveStart (s : SFState) (c : Nat) :
      s.slot = none →
      SFStep s { slot := some s.nextId, nextId := s.nextId + 1,
                 running := s.nextId :: s.running, done := s.done,
                 waiting := (c, s.nextId) :: s.waiting,
                 observed := s.observed }
  | arriveJoin (s : SFState) (c i : Nat) :
      s.slot = some i →
      SFStep s { s with waiting := (c, i) :: s.waiting }
  | complete (s : SFState) (i : Nat) (o : Outcome) :
      i ∈ s.running →
      SFStep s { slot := none, nextId := s.nextId,
                 running := s.running.erase i, done := (i, o) :: s.done,
                 waiting := s.waiting, observed := s.observed }
  | resume (s : SFState) (c i : Nat) (o : Outcome) :
      (c, i) ∈ s.waiting → (i, o) ∈ s.done →
      SFStep s { s with waiting := s.waiting.erase (c, i),
                        observed := (c, i, o) :: s.observed }

/-- States reachable from `SFInit` by the protocol's steps. -/
inductive SFReachable : SFState → Prop where
  | init : SFReachable SFInit
  | step {s s2 : SFState} : SFReachable s → SFStep s s2 → SFReachable s2

/-- The inductive invariant of the single-flight protocol. -/
def SFInv (s : SFState) : Prop :=
  s.running.Nodup ∧
  (∀ i, s.slot = some i ↔ i ∈ s.running) ∧
  (∀ i ∈ s.running, i < s.nextId) ∧
  (∀ p ∈ s.done, p.fst < s.nextId) ∧
  (∀ p ∈ s.done, p.fst ∉ s.running) ∧
  (s.done.map Prod.fst).Nodup ∧
  (∀ t ∈ s.observed, (t.snd.fst, t.snd.snd) ∈ s.done) ∧
  (∀ w ∈ s.waiting, w.snd ∈ s.running ∨ ∃ o, (w.snd, o) ∈ s.done)

lemma sfInv_init : SFInv SFInit := by
  simp [SFInv, SFInit]

lemma outcome_unique :
    ∀ (l : List (Nat × Outcome)), (l.map Prod.fst).Nodup →
      ∀ i o o2, (i, o) ∈ l → (i, o2) ∈ l → o = o2 := by
  intro l
  induction l with
  | nil => intro _ i o o2 h1 _; cases h1
  | cons a t ih =>
    intro hnd i o o2 h1 h2
    rw [List.map_cons, List.nodup_cons] at hnd
    rcases List.mem_cons.mp h1 with h1a | h1t
    · rcases List.mem_cons.mp h2 with h2a | h2t
      · exact (Prod.ext_iff.mp (h1a.trans h2a.symm)).2
      · exfalso
        apply hnd.1
        rw [← h1a]
        exact List.mem_map.mpr ⟨(i, o2), h2t, rfl⟩
    · rcases List.mem_cons.mp h2 with h2a | h2t
      · exfalso
        apply hnd.1
        rw [← h2a]
        exact List.mem_map.mpr ⟨(i, o), h1t, rfl⟩
      · exact ih hnd.2 i o o2 h1t h2t

lemma sfInv_step {s s2 : SFState} (hinv : SFInv s) (hstep : SFStep s s2) :
    SFInv s2 := by
  obtain ⟨hnd, hslot, hrb, hdb, hdr, hdk, hod, hw⟩ := hinv
  cases hstep with
  | arriveStart c hnone =>
    have hempty : s.running = [] := by
      refine List.eq_nil_iff_forall_not_mem.mpr fun i hi => ?_
      have h1 := (hslot i).mpr hi
      rw [hnone] at h1
      exact Option.noConfusion h1
    refine ⟨?_, ?_, ?_, ?_, ?_, hdk, hod, ?_⟩
    · show (s.nextId :: s.running).Nodup
      rw [hempty]
      simp
    · intro i
      show some s.nextId = some i ↔ i ∈ s.nextId :: s.running
      rw [hempty]
      simp
      omega
    · intro i hi
      show i < s.nextId + 1
      have hi2 : i ∈ s.nextId :: s.running := hi
      rw [hempty] at hi2
      simp at hi2
      omega
    · intro p hp
      show p.1 < s.nextId + 1
      have := hdb p hp
      omega
    · intro p hp
      show p.1 ∉ s.nextId :: s.running
      rw [hempty]
      have := hdb p hp
      simp
      omega
    · intro w hw2
      rcases List.mem_cons.mp hw2 with hwa | hwt
      · exact Or.inl (by rw [hwa]; exact List.mem_cons_self _ _)
      · rcases hw w hwt with hr | hd
        · exact Or.inl (List.mem_cons_of_mem _ hr)
        · exact Or.inr hd
  | arriveJoin c i hsome =>
    refine ⟨hnd, hslot, hrb, hdb, hdr, hdk, hod, ?_⟩
    intro w hw2
    rcases List.mem_cons.mp hw2 with hwa | hwt
    · exact Or.inl (by rw [hwa]; exact (hslot i).mp hsome)
    · exact hw w hwt
  | complete i o hi =>
    have hsingle : ∀ j ∈ s.running, j = i := by
      intro j hj
      have h1 := (hslot j).mpr hj
      have h2 := (hslot i).mpr hi
      rw [h1] at h2
      exact Option.some_inj.mp h2
    have hl : s.running = [i] := by
      cases hr : s.running with
      | nil => rw [hr] at hi; exact absurd hi (List.not_mem_nil i)
      | cons a t =>
        have ha : a = i := hsingle a (by rw [hr]; exact List.mem_cons_self a t)
        have ht : t = [] := by
          refine List.eq_nil_iff_forall_not_mem.mpr fun j hj => ?_
          have hji : j = i :=
            hsingle j (by rw [hr]; exact List.mem_cons_of_mem a hj)
          rw [hr, ha] at hnd
          rw [hji] at hj
          exact (List.nodup_cons.mp hnd).1 hj
        rw [ha, ht]
    have herase : s.running.erase i = [] := by
      rw [hl]
      simp
    refine ⟨?_, ?_, ?_, ?_, ?_, ?_, ?_, ?_⟩
    · show (s.running.erase i).Nodup
      rw [herase]
      exact List.nodup_nil
    · intro j
      show none = some j ↔ j ∈ s.running.erase i
      rw [herase]
      simp
    · intro j hj
      have hj2 : j ∈ s.running.erase i := hj
      rw [herase] at hj2
      exact absurd hj2 (List.not_mem_nil j)
    · intro p hp
      show p.1 < s.nextId
      rcases List.mem_cons.mp hp with hpa | hpt
      · rw [hpa]; exact hrb i hi
      · exact hdb p hpt
    · intro p hp
      show p.1 ∉ s.running.erase i
      rw [herase]
      exact List.not_mem_nil _
    · show (((i, o) :: s.done).map Prod.fst).Nodup
      rw [List.map_cons, List.nodup_cons]
      refine ⟨fun hmem => ?_, hdk⟩
      rcases List.mem_map.mp hmem with ⟨p, hp, hfst⟩
      exact hdr p hp (hfst ▸ hi)
    · intro t ht
      exact List.mem_cons_of_mem _ (hod t ht)
    · intro w hw2
      rcases hw w hw2 with hr | ⟨o2, hd⟩
      · have : w.snd = i := hsingle w.snd hr
        exact Or.inr ⟨o, by rw [this]; exact List.mem_cons_self _ _⟩
      · exact Or.inr ⟨o2, List.mem_cons_of_mem _ hd⟩
  | resume c i o hwmem hdmem =>
    refine ⟨hnd, hslot, hrb, hdb, hdr, hdk, ?_, ?_⟩
    · intro t ht
      rcases List.mem_cons.mp ht with hta | htt
      · rw [hta]; exact hdmem
      · exact hod t htt
    · intro w hw2
      exact hw w (List.mem_of_mem_erase hw2)

lemma sfInv_reach {s : SFState} (h : SFReachable s) : SFInv s := by
  induction h with
  | init => exact sfInv_init
  | step _ hstep ih => exact sfInv_step ih hstep

/-- C1: dataset preparation is single-flight.  In every reachable state of
the `downloadInProgress` protocol of utils.ts lines 42 and 178–185: at most
one `downloadAndPrepareDatabase` execution is running process-wide; the
in-flight marker holds exactly the running execution's promise (so it is
reset to null when the execution completes, letting a later call start a new
cycle); any two callers that awaited the same execution observed the same
outcome; and every awaiting caller is attached to an execution that is either
in flight or settled, whose single outcome it will observe. -/
theorem getDatabasePath_single_flight {s : SFState} (h : SFReachable s) :
    s.running.length ≤ 1 ∧
    (∀ i, s.slot = some i ↔ i ∈ s.running) ∧
    (∀ c c2 i o o2, (c, i, o) ∈ s.observed → (c2, i, o2) ∈ s.observed →
      o = o2) ∧
    (∀ w ∈ s.waiting, w.snd ∈ s.running ∨ ∃ o, (w.snd, o) ∈ s.done) := by
  obtain ⟨hnd, hslot, _, _, _, hdk, hod, hw⟩ := sfInv_reach h
  refine ⟨?_, hslot, ?_, hw⟩
  · cases hr : s.running with
    | nil => simp
    | cons a t =>
      cases ht : t with
      | nil => simp
      | cons b u =>
        exfalso
        have ha := (hslot a).mpr (by rw [hr]; exact List.mem_cons_self a t)
        have hb := (hslot b).mpr
          (by rw [hr, ht]; exact List.mem_cons_of_mem a (List.mem_cons_self b u))
        rw [ha] at hb
        have hab : a = b := Option.some.injEq _ _ ▸ hb
        rw [hr, ht, hab] at hnd
        exact (List.nodup_cons.mp hnd).1 (List.mem_cons_self b u)
  · intro c c2 i o o2 h1 h2
    exact outcome_unique s.done hdk i o o2 (hod _ h1) (hod _ h2)

/-- A concrete reachable state: one caller has arrived and started the first
download execution. -/
def sfW : SFState :=
  { slot := some 0, nextId := 1, running := [0], done := [],
    waiting := [(7, 0)], observed := [] }

theorem getDatabasePath_single_flight_witness :
    sfW.running.length ≤ 1 ∧
    (∀ i, sfW.slot = some i ↔ i ∈ sfW.running) ∧
    (∀ c c2 i o o2, (c, i, o) ∈ sfW.observed → (c2, i, o2) ∈ sfW.observed →
      o = o2) ∧
    (∀ w ∈ sfW.waiting, w.snd ∈ sfW.running ∨ ∃ o, (w.snd, o) ∈ sfW.done) :=
  getDatabasePath_single_flight
    (SFReachable.step SFReachable.init (SFStep.arriveStart SFInit 7 rfl))

lemma find_filter_self (l : List (String × FileData)) (p : String) :
    (l.filter (fun e => !(e.fst == p))).find? (fun e => e.fst == p) = none := by
  induction l with
  | nil => rfl
  | cons a t ih =>
    by_cases hap : a.fst = p
    · simp [List.filter_cons, hap, ih]
    · simp [List.filter_cons, hap, List.find?_cons, ih]

lemma find_filter_ne (l : List (String × FileData)) (p q : String) (h : q ≠ p) :
    (l.filter (fun e => !(e.fst == p))).find? (fun e => e.fst == q)
      = l.find? (fun e => e.fst == q) := by
  induction l with
  | nil => rfl
  | cons a t ih =>
    by_cases hap : a.fst = p
    · have haq : (a.fst == q) = false := by
        rw [hap]
        exact beq_false_of_ne (fun hpq => h hpq.symm)
      have hap2 : (a.fst == p) = true := beq_iff_eq.mpr hap
      simp [List.filter_cons, hap2, List.find?_cons, haq, ih]
    · have hap2 : (a.fst == p) = false := beq_false_of_ne hap
      cases haq : (a.fst == q) with
      | true => simp [List.filter_cons, hap2, List.find?_cons, haq]
      | false => simp [List.filter_cons, hap2, List.find?_cons, haq, ih]

lemma read_write_self (fs : FS) (p : String) (d : FileData) :
    (fs.write p d).read p = some d := by
  simp [FS.write, FS.read, List.find?_cons]

lemma read_write_ne (fs : FS) (p : String) (d : FileData) (q : String)
    (h : q ≠ p) : (fs.write p d).read q = fs.read q := by
  have hpq : (p == q) = false := beq_false_of_ne (fun hpq => h hpq.symm)
  simp [FS.write, FS.read, List.find?_cons, hpq]

lemma read_remove_self (fs : FS) (p : String) : (fs.remove p).read p = none := by
  simp [FS.remove, FS.read, find_filter_self]

lemma read_remove_ne (fs : FS) (p q : String) (h : q ≠ p) :
    (fs.remove p).read q = fs.read q := by
  simp [FS.remove, FS.read, find_filter_ne _ _ _ h]

lemma exists_eq_read_isSome (fs : FS) (p : String) :
    fs.fileExists p = (fs.read p).isSome := by
  simp [FS.fileExists, FS.read]

lemma exists_remove_self (fs : FS) (p : String) :
    (fs.remove p).fileExists p = false := by
  simp [exists_eq_read_isSome, read_remove_self]

lemma exists_write_ne (fs : FS) (p : String) (d : FileData) (q : String)
    (h : q ≠ p) : (fs.write p d).fileExists q = fs.fileExists q := by
  simp [exists_eq_read_isSome, read_write_ne _ _ _ _ h]

lemma ne_append_gz (dst : String) : dst ≠ dst ++ ".gz" := by
  intro h
  have h2 := congrArg String.length h
  rw [String.length_append] at h2
  have h3 : ".gz".length = 3 := rfl
  omega

/-- Whether an `Except String Unit` outcome is a success. -/
def isOkU : Except String Unit → Bool
  | Except.ok _ => true
  | Except.error _ => false

/-- Whether an `Except String String` outcome is a success. -/
def isOkS : Except String String → Bool
  | Except.ok _ => true
  | Except.error _ => false

lemma cleanup_error_not_exists {msg dst : String} {s : St} {m : String}
    {s2 : St} (h : cleanupAndReject msg dst s = (Except.error m, s2)) :
    s2.fs.fileExists dst = false := by
  have h2 : s2 = s.remove dst := (congrArg Prod.snd h).symm
  rw [h2]
  exact exists_remove_self _ _

lemma doRequest_error_not_exists (env : Env) (responses : Nat → Resp)
    (dst : String) :
    ∀ fuel redirectCount s m s2,
      doRequest env responses dst fuel redirectCount s = (Except.error m, s2) →
      s2.fs.fileExists dst = false := by
  intro fuel
  induction fuel with
  | zero =>
    intro count s m s2 h
    rw [doRequest] at h
    split at h
    · exact cleanup_error_not_exists h
    · exact cleanup_error_not_exists h
  | succ fuel2 ih =>
    intro count s m s2 h
    rw [doRequest] at h
    split at h
    · exact cleanup_error_not_exists h
    · split at h
      · exact cleanup_error_not_exists h
      · split at h
        · exact ih _ _ m s2 h
        · split at h
          · exact cleanup_error_not_exists h
          · simp at h

lemma doRequest_preserves (env : Env) (responses : Nat → Resp)
    (dst q : String) (hq : q ≠ dst) :
    ∀ fuel redirectCount s,
      ((doRequest env responses dst fuel redirectCount s).snd).fs.read q
        = s.fs.read q := by
  intro fuel
  induction fuel with
  | zero =>
    intro count s
    rw [doRequest]
    split
    · exact read_remove_ne _ _ _ hq
    · exact read_remove_ne _ _ _ hq
  | succ fuel2 ih =>
    intro count s
    rw [doRequest]
    split
    · exact read_remove_ne _ _ _ hq
    · split
      · exact read_remove_ne _ _ _ hq
      · split
        · rw [ih]
          rfl
        · split
          · exact read_remove_ne _ _ _ hq
          · exact read_write_ne _ _ _ _ hq

lemma downloadFile_error_not_exists (env : Env) (responses : Nat → Resp)
    (url dst : String) (s : St) (m : String) (s2 : St)
    (h : downloadFile env responses url dst s = (Except.error m, s2)) :
    s2.fs.fileExists dst = false := by
  rw [downloadFile] at h
  split at h
  · exact doRequest_error_not_exists env responses dst _ _ _ m s2 h
  · exact cleanup_error_not_exists h

lemma downloadFile_preserves (env : Env) (responses : Nat → Resp)
    (url dst q : String) (s : St) (hq : q ≠ dst) :
    ((downloadFile env responses url dst s).snd).fs.read q = s.fs.read q := by
  rw [downloadFile]
  split
  · rw [doRequest_preserves env responses dst q hq]
    exact read_write_ne _ _ _ _ hq
  · exact (read_remove_ne _ _ _ hq).trans (read_write_ne _ _ _ _ hq)

lemma doRequest_chain_ok (env : Env) (responses : Nat → Resp) (dst : String) :
    ∀ n count fuel s, count + n ≤ 5 → n < fuel →
      (∀ i, i < n → isRedirectResp (responses (count + i)) = true) →
      is200 (responses (count + n)) = true →
      isOkU (doRequest env responses dst fuel count s).fst = true := by
  intro n
  induction n with
  | zero =>
    intro count fuel s hle hfuel _ h200
    cases fuel with
    | zero => exact absurd hfuel (lt_irrefl 0)
    | succ fuel2 =>
      rw [doRequest]
      split
      · exfalso
        omega
      · split
        · rename_i m heq
          rw [Nat.add_zero, heq] at h200
          simp [is200] at h200
        · rename_i code loc body heq
          rw [Nat.add_zero, heq] at h200
          simp only [is200, beq_iff_eq] at h200
          split
          · rename_i hcond
            rcases hcond with ⟨h1, _, _⟩
            exfalso
            omega
          · split
            · rename_i hne
              exact absurd h200 hne
            · rfl
  | succ n2 ih =>
    intro count fuel s hle hfuel hred h200
    cases fuel with
    | zero => exact absurd hfuel (Nat.not_lt_zero _)
    | succ fuel2 =>
      rw [doRequest]
      split
      · exfalso
        omega
      · split
        · rename_i m heq
          have h0 := hred 0 (by omega)
          rw [Nat.add_zero, heq] at h0
          simp [isRedirectResp] at h0
        · rename_i code loc body heq
          have h0 := hred 0 (by omega)
          rw [Nat.add_zero, heq] at h0
          have hcond : 300 ≤ code ∧ code < 400 ∧ locTruthy loc = true := by
            simp only [isRedirectResp, Bool.and_eq_true, decide_eq_true_eq] at h0
            exact ⟨h0.1.1, h0.1.2, h0.2⟩
          split
          · refine ih (count + 1) fuel2 _ (by omega) (by omega) ?_ ?_
            · intro i hi
              have h2 := hred (i + 1) (by omega)
              have h3 : count + (i + 1) = count + 1 + i := by omega
              rw [h3] at h2
              exact h2
            · have h3 : count + (n2 + 1) = count + 1 + n2 := by omega
              rw [h3] at h200
              exact h200
          · rename_i hnot
            exact absurd hcond hnot

lemma doRequest_chain_toomany (env : Env) (responses : Nat → Resp)
    (dst : String) :
    ∀ k count fuel s, count + k = 6 → k < fuel →
      (∀ i, i < k → isRedirectResp (responses (count + i)) = true) →
      (doRequest env responses dst fuel count s).fst
        = Except.error tooManyRedirectsMsg := by
  intro k
  induction k with
  | zero =>
    intro count fuel s h6 hfuel _
    cases fuel with
    | zero =>
      rw [doRequest]
      rw [if_pos (by omega : count > 5)]
      rfl
    | succ fuel2 =>
      rw [doRequest]
      rw [if_pos (by omega : count > 5)]
      rfl
  | succ k2 ih =>
    intro count fuel s h6 hfuel hred
    cases fuel with
    | zero => exact absurd hfuel (Nat.not_lt_zero _)
    | succ fuel2 =>
      rw [doRequest]
      split
      · exfalso
        omega
      · split
        · rename_i m heq
          have h0 := hred 0 (by omega)
          rw [Nat.add_zero, heq] at h0
          simp [isRedirectResp] at h0
        · rename_i code loc body heq
          have h0 := hred 0 (by omega)
          rw [Nat.add_zero, heq] at h0
          have hcond : 300 ≤ code ∧ code < 400 ∧ locTruthy loc = true := by
            simp only [isRedirectResp, Bool.and_eq_true, decide_eq_true_eq] at h0
            exact ⟨h0.1.1, h0.1.2, h0.2⟩
          split
          · refine ih (count + 1) fuel2 _ (by omega) (by omega) ?_
            intro i hi
            have h2 := hred (i + 1) (by omega)
            have h3 : count + (i + 1) = count + 1 + i := by omega
            rw [h3] at h2
            exact h2
          · rename_i hnot
            exact absurd hcond hnot

/-- C3: the redirect-follow loop of `downloadFile` is bounded at 5 hops: a
response chain with at most 5 redirects before a 200 succeeds, and a chain
whose first 6 responses are redirects is rejected with the redirect-limit
error `Too many redirects while downloading database` rather than followed
further. -/
theorem downloadFile_redirect_bound (env : Env) (responses : Nat → Resp)
    (url dst : String) (s : St) (hw : env.writeOk = true) :
    (∀ n, n ≤ 5 → (∀ i, i < n → isRedirectResp (responses i) = true) →
      is200 (responses n) = true →
      isOkU (downloadFile env responses url dst s).fst = true) ∧
    ((∀ i, i < 6 → isRedirectResp (responses i) = true) →
      (downloadFile env responses url dst s).fst
        = Except.error tooManyRedirectsMsg) := by
  constructor
  · intro n hn hred h200
    rw [downloadFile, if_pos hw]
    refine doRequest_chain_ok env responses dst n 0 7 _ (by omega) (by omega)
      ?_ ?_
    · intro i hi
      have h2 := hred i hi
      have h3 : (0 : Nat) + i = i := by omega
      rw [h3]
      exact h2
    · have h3 : (0 : Nat) + n = n := by omega
      rw [h3]
      exact h200
  · intro hred
    rw [downloadFile, if_pos hw]
    refine doRequest_chain_toomany env responses dst 6 0 7 _ (by omega)
      (by omega) ?_
    intro i hi
    have h2 := hred i hi
    have h3 : (0 : Nat) + i = i := by omega
    rw [h3]
    exact h2

/-- C9: whenever `downloadFile` fails for any reason — request error,
write-stream error, too many redirects, or a final non-redirect response
whose status is not 200 — it returns an error and the partially written
destination file has been unlinked, so a failed download never leaves a
file at the destination path. -/
theorem downloadFile_failure_leaves_no_file (env : Env)
    (responses : Nat → Resp) (url dst : String) (s : St)
    (h : isOkU (downloadFile env responses url dst s).fst = false) :
    ((downloadFile env responses url dst s).snd).fs.fileExists dst = false := by
  cases hfst : (downloadFile env responses url dst s).fst with
  | ok u =>
    rw [hfst] at h
    simp [isOkU] at h
  | error m =>
    have hpair : downloadFile env responses url dst s
        = (Except.error m, (downloadFile env responses url dst s).snd) := by
      rw [← hfst]
    exact downloadFile_error_not_exists env responses url dst s m _ hpair

/-- C8: after any run of `downloadAndPrepareDatabase` in which the download
itself succeeded, the temporary compressed artifact (the sibling `.gz` file
next to the cache path) has been deleted, whether or not the subsequent
decompression succeeded. -/
theorem downloadAndPrepare_removes_gz (env : Env) (responses : Nat → Resp)
    (url dst : String) (s : St)
    (h : isOkU (downloadFile env responses url (dst ++ ".gz") s).fst = true) :
    ((downloadAndPrepareDatabase env responses url dst s).snd).fs.fileExists
      (dst ++ ".gz") = false := by
  cases hfst : (downloadFile env responses url (dst ++ ".gz") s).fst with
  | error m =>
    rw [hfst] at h
    simp [isOkU] at h
  | ok u =>
    have hpair : downloadFile env responses url (dst ++ ".gz") s
        = (Except.ok u,
           (downloadFile env responses url (dst ++ ".gz") s).snd) := by
      rw [← hfst]
    rw [downloadAndPrepareDatabase, hpair]
    exact exists_remove_self _ _

/-- C2 (amended): only the download step writes through a temporary
location.  The downloaded snapshot goes to the sibling `.gz` path and is
decompressed into the cache path only after the download has fully
succeeded: a failed download fails the whole preparation, leaves the final
cache path exactly as it was, and leaves no file at the temporary `.gz`
path.  (Copy and decompression, by contrast, write directly to the final
cache path — see the counterexample.) -/
theorem downloadAndPrepare_download_failure_isolated (env : Env)
    (responses : Nat → Resp) (url dst : String) (s : St)
    (h : isOkU (downloadFile env responses url (dst ++ ".gz") s).fst = false) :
    isOkU (downloadAndPrepareDatabase env responses url dst s).fst = false ∧
    ((downloadAndPrepareDatabase env responses url dst s).snd).fs.read dst
      = s.fs.read dst ∧
    ((downloadAndPrepareDatabase env responses url dst s).snd).fs.fileExists
      (dst ++ ".gz") = false := by
  cases hfst : (downloadFile env responses url (dst ++ ".gz") s).fst with
  | ok u =>
    rw [hfst] at h
    simp [isOkU] at h
  | error m =>
    have hpair : downloadFile env responses url (dst ++ ".gz") s
        = (Except.error m,
           (downloadFile env responses url (dst ++ ".gz") s).snd) := by
      rw [← hfst]
    rw [downloadAndPrepareDatabase, hpair]
    refine ⟨rfl, ?_, ?_⟩
    · exact downloadFile_preserves env responses url (dst ++ ".gz") dst s
        (ne_append_gz dst)
    · exact downloadFile_error_not_exists env responses url (dst ++ ".gz") s
        m _ hpair

/-- A fault-free environment. -/
def cEnvOk : Env := ⟨true, true, true⟩

/-- An environment whose decompression pipeline fails. -/
def cEnvNoGunzip : Env := ⟨true, false, true⟩

/-- A network where every request fails at the request level. -/
def cRespFail : Nat → Resp := fun _ => Resp.reqError "connection refused"

/-- A network answering 200 immediately. -/
def cRespOk : Nat → Resp := fun _ => Resp.resp 200 none "payload"

/-- A network that redirects the first five requests and then answers 200. -/
def cResp5 : Nat → Resp := fun i =>
  if i < 5 then Resp.resp 301 (some "next") "" else Resp.resp 200 none "payload"

/-- The empty starting state. -/
def st0 : St := ⟨⟨[]⟩, []⟩

theorem downloadFile_redirect_bound_witness :
    (∀ n, n ≤ 5 → (∀ i, i < n → isRedirectResp (cResp5 i) = true) →
      is200 (cResp5 n) = true →
      isOkU (downloadFile cEnvOk cResp5 "u" "dst" st0).fst = true) ∧
    ((∀ i, i < 6 → isRedirectResp (cResp5 i) = true) →
      (downloadFile cEnvOk cResp5 "u" "dst" st0).fst
        = Except.error tooManyRedirectsMsg) :=
  downloadFile_redirect_bound cEnvOk cResp5 "u" "dst" st0 rfl

theorem downloadFile_failure_leaves_no_file_witness :
    ((downloadFile cEnvOk cRespFail "u" "dst" st0).snd).fs.fileExists "dst"
      = false :=
  downloadFile_failure_leaves_no_file cEnvOk cRespFail "u" "dst" st0 rfl

theorem downloadAndPrepare_removes_gz_witness :
    ((downloadAndPrepareDatabase cEnvOk cRespOk "u" "db" st0).snd).fs.fileExists
      ("db" ++ ".gz") = false :=
  downloadAndPrepare_removes_gz cEnvOk cRespOk "u" "db" st0 rfl

theorem downloadAndPrepare_download_failure_isolated_witness :
    isOkU (downloadAndPrepareDatabase cEnvOk cRespFail "u" "db" st0).fst
        = false ∧
    ((downloadAndPrepareDatabase cEnvOk cRespFail "u" "db" st0).snd).fs.read
        "db" = st0.fs.read "db" ∧
    ((downloadAndPrepareDatabase cEnvOk cRespFail "u" "db" st0).snd).fs.fileExists
        ("db" ++ ".gz") = false :=
  downloadAndPrepare_download_failure_isolated cEnvOk cRespFail "u" "db" st0 rfl

/-- Context for the counterexample runs: home `h`, module directory `d`,
working directory `c`, no environment variables set. -/
def c2Ctx : Ctx := ⟨"h", "d", "c", none, none, none⟩

/-- Default options: no explicit path, no `forceFresh`. -/
def c2Opts : GetDbOptions := ⟨false, none⟩

/-- A filesystem holding one complete compressed database at the candidate
location `join(DIRNAME, "vpic.lite.db.gz")`, and nothing else. -/
def c2St : St := ⟨⟨[("d/vpic.lite.db.gz", ⟨"payload", true⟩)]⟩, []⟩

/-- C2 counterexample: preparation does NOT write through a temporary
location for local hits.  With a complete compressed candidate present and a
decompression that fails mid-stream, `getDatabasePath` fails — and the final
cache path `h/.corgi-cache/vpic.lite.db` is left holding a partially written
file (`complete = false`), because `decompressDatabase` opens its write
stream directly on the final cache path (utils.ts line 214) with no
temporary-then-promote step. -/
theorem decompress_failure_corrupts_cache_counterexample :
    isOkS (getDatabasePath c2Ctx cEnvNoGunzip cRespFail c2Opts c2St).fst
        = false ∧
    ((getDatabasePath c2Ctx cEnvNoGunzip cRespFail c2Opts c2St).snd).fs.read
        (CACHE_DB_PATH c2Ctx) = some ⟨"", false⟩ := by
  constructor
  · rfl
  · rfl

lemma ensureCacheDir_fs (ctx : Ctx) (s : St) :
    (ensureCacheDir ctx s).fs = s.fs := by
  rw [ensureCacheDir]
  split <;> rfl

lemma copyFile_ok (env : Env) (src dst : String) (s : St) (d : FileData)
    (hread : s.fs.read src = some d) (hok : env.copyOk = true)
    (hne : src ≠ dst) :
    copyFile env src dst s
      = (Except.ok (),
         ((s.log (Ev.copyEv src dst)).write dst ⟨"", false⟩).write dst d) := by
  rw [copyFile]
  have hr : (((s.log (Ev.copyEv src dst)).write dst ⟨"", false⟩)).fs.read src
      = some d := (read_write_ne s.fs dst ⟨"", false⟩ src hne).trans hread
  rw [hr]
  simp [hok]

lemma decompressDatabase_ok (env : Env) (src dst : String) (s : St)
    (d : FileData) (hread : s.fs.read src = some d)
    (hcomplete : d.complete = true) (hok : env.decompressOk = true)
    (hne : src ≠ dst) :
    decompressDatabase env src dst s
      = (Except.ok (),
         ((s.log (Ev.decompressEv src dst)).write dst ⟨"", false⟩).write dst
           ⟨gunzip d.content, true⟩) := by
  rw [decompressDatabase]
  have hr : (((s.log (Ev.decompressEv src dst)).write dst ⟨"", false⟩)).fs.read
      src = some d := (read_write_ne s.fs dst ⟨"", false⟩ src hne).trans hread
  rw [hr]
  simp [hcomplete, hok]

lemma findAndCopy_none (env : Env) (c : String) :
    ∀ (paths : List String) (s : St),
      (∀ p ∈ paths, s.fs.fileExists p = false) →
      findAndCopy env paths c s
        = (none, { s with trace := s.trace ++ paths.map Ev.probe }) := by
  intro paths
  induction paths with
  | nil =>
    intro s h
    simp [findAndCopy]
  | cons p rest ih =>
    intro s h
    have hp : s.fs.fileExists p = false := h p (List.mem_cons_self p rest)
    rw [findAndCopy, if_neg (by simp [hp]),
      ih (s.log (Ev.probe p)) (fun q hq => h q (List.mem_cons_of_mem p hq))]
    simp [St.log, List.map_cons, List.append_assoc]

lemma findAndDecompress_none (env : Env) (c : String) :
    ∀ (paths : List String) (s : St),
      (∀ p ∈ paths, s.fs.fileExists p = false) →
      findAndDecompress env paths c s
        = (none, { s with trace := s.trace ++ paths.map Ev.probe }) := by
  intro paths
  induction paths with
  | nil =>
    intro s h
    simp [findAndDecompress]
  | cons p rest ih =>
    intro s h
    have hp : s.fs.fileExists p = false := h p (List.mem_cons_self p rest)
    rw [findAndDecompress, if_neg (by simp [hp]),
      ih (s.log (Ev.probe p)) (fun q hq => h q (List.mem_cons_of_mem p hq))]
    simp [St.log, List.map_cons, List.append_assoc]

lemma findAndCopy_found (env : Env) (c : String) :
    ∀ (paths : List String) (s : St) (p : String),
      paths.find? (fun q => s.fs.fileExists q) = some p →
      ∃ s1 : St, s1.fs = s.fs ∧
        findAndCopy env paths c s
          = (some (copyFile env p c s1).fst, (copyFile env p c s1).snd) := by
  intro paths
  induction paths with
  | nil =>
    intro s p h
    simp [List.find?] at h
  | cons a rest ih =>
    intro s p h
    cases hex : s.fs.fileExists a with
    | true =>
      have hap : a = p := by
        rw [List.find?_cons_of_pos _ hex] at h
        exact Option.some_inj.mp h
      rw [findAndCopy, if_pos hex]
      exact ⟨s.log (Ev.probe a), rfl, by rw [hap]⟩
    | false =>
      have h2 : rest.find? (fun q => s.fs.fileExists q) = some p := by
        rw [List.find?_cons_of_neg _ (by simp [hex])] at h
        exact h
      obtain ⟨s1, hfs, heq⟩ := ih (s.log (Ev.probe a)) p h2
      rw [findAndCopy, if_neg (by simp [hex]), heq]
      exact ⟨s1, hfs, rfl⟩

lemma findAndDecompress_found (env : Env) (c : String) :
    ∀ (paths : List String) (s : St) (p : String),
      paths.find? (fun q => s.fs.fileExists q) = some p →
      ∃ s1 : St, s1.fs = s.fs ∧
        findAndDecompress env paths c s
          = (some (decompressDatabase env p c s1).fst,
             (decompressDatabase env p c s1).snd) := by
  intro paths
  induction paths with
  | nil =>
    intro s p h
    simp [List.find?] at h
  | cons a rest ih =>
    intro s p h
    cases hex : s.fs.fileExists a with
    | true =>
      have hap : a = p := by
        rw [List.find?_cons_of_pos _ hex] at h
        exact Option.some_inj.mp h
      rw [findAndDecompress, if_pos hex]
      exact ⟨s.log (Ev.probe a), rfl, by rw [hap]⟩
    | false =>
      have h2 : rest.find? (fun q => s.fs.fileExists q) = some p := by
        rw [List.find?_cons_of_neg _ (by simp [hex])] at h
        exact h
      obtain ⟨s1, hfs, heq⟩ := ih (s.log (Ev.probe a)) p h2
      rw [findAndDecompress, if_neg (by simp [hex]), heq]
      exact ⟨s1, hfs, rfl⟩

lemma prepareFailure_of_ok {x : Except String String × St} {v : String}
    (h : x.fst = Except.ok v) : prepareFailure x = x := by
  rcases x with ⟨r, st⟩
  cases r with
  | ok w => rfl
  | error e => simp at h

lemma body_eq_search (ctx : Ctx) (env : Env) (responses : Nat → Resp)
    (opts : GetDbOptions) (s : St)
    (hfresh : opts.forceFresh = true ∨
      s.fs.fileExists (CACHE_DB_PATH ctx) = false) :
    ∃ s4 : St, s4.fs = s.fs ∧
      (s4.trace = s.trace ∨
        s4.trace = s.trace ++ [Ev.probe (CACHE_DB_PATH ctx)]) ∧
      getDatabasePathBody ctx env responses opts s
        = searchAndFetch ctx env responses s4 := by
  rw [getDatabasePathBody]
  cases hff : opts.forceFresh with
  | true =>
    refine ⟨s, rfl, Or.inl rfl, ?_⟩
    simp
  | false =>
    rcases hfresh with h | h
    · rw [hff] at h
      exact absurd h (by simp)
    · refine ⟨s.log (Ev.probe (CACHE_DB_PATH ctx)), rfl, Or.inr rfl, ?_⟩
      rw [h]
      simp

lemma searchAndFetch_copy_hit (ctx : Ctx) (env : Env) (responses : Nat → Resp)
    (s : St) (p : String) (d : FileData)
    (hfind : (getUncompressedDbPaths ctx).find?
      (fun q => s.fs.fileExists q) = some p)
    (hread : s.fs.read p = some d) (hok : env.copyOk = true)
    (hne : p ≠ CACHE_DB_PATH ctx) :
    (searchAndFetch ctx env responses s).fst = Except.ok (CACHE_DB_PATH ctx) ∧
    Ev.copyEv p (CACHE_DB_PATH ctx)
      ∈ ((searchAndFetch ctx env responses s).snd).trace ∧
    ((searchAndFetch ctx env responses s).snd).fs.read (CACHE_DB_PATH ctx)
      = some d := by
  obtain ⟨s1, hfs1, heq⟩ := findAndCopy_found env (CACHE_DB_PATH ctx)
    (getUncompressedDbPaths ctx) (ensureCacheDir ctx s) p
    (by simp only [ensureCacheDir_fs]; exact hfind)
  have hread1 : s1.fs.read p = some d := by
    rw [hfs1, ensureCacheDir_fs]
    exact hread
  have hcopy := copyFile_ok env p (CACHE_DB_PATH ctx) s1 d hread1 hok hne
  rw [searchAndFetch, heq, hcopy]
  refine ⟨rfl, ?_, ?_⟩
  · show Ev.copyEv p (CACHE_DB_PATH ctx)
      ∈ (((s1.log (Ev.copyEv p (CACHE_DB_PATH ctx))).write (CACHE_DB_PATH ctx)
          ⟨"", false⟩).write (CACHE_DB_PATH ctx) d).trace
    simp [St.log, St.write]
  · show ((((s1.log (Ev.copyEv p (CACHE_DB_PATH ctx))).write (CACHE_DB_PATH ctx)
        ⟨"", false⟩).write (CACHE_DB_PATH ctx) d)).fs.read (CACHE_DB_PATH ctx)
      = some d
    exact read_write_self _ _ _

lemma searchAndFetch_decompress_hit (ctx : Ctx) (env : Env)
    (responses : Nat → Resp) (s : St) (p : String) (d : FileData)
    (hun : ∀ q ∈ getUncompressedDbPaths ctx, s.fs.fileExists q = false)
    (hfind : (getCompressedDbPaths ctx).find?
      (fun q => s.fs.fileExists q) = some p)
    (hread : s.fs.read p = some d) (hcomplete : d.complete = true)
    (hok : env.decompressOk = true) (hne : p ≠ CACHE_DB_PATH ctx) :
    (searchAndFetch ctx env responses s).fst = Except.ok (CACHE_DB_PATH ctx) ∧
    Ev.decompressEv p (CACHE_DB_PATH ctx)
      ∈ ((searchAndFetch ctx env responses s).snd).trace ∧
    ((searchAndFetch ctx env responses s).snd).fs.read (CACHE_DB_PATH ctx)
      = some ⟨gunzip d.content, true⟩ := by
  have hnone := findAndCopy_none env (CACHE_DB_PATH ctx)
    (getUncompressedDbPaths ctx) (ensureCacheDir ctx s)
    (by simp only [ensureCacheDir_fs]; exact hun)
  set s2 : St := { ensureCacheDir ctx s with
    trace := (ensureCacheDir ctx s).trace
      ++ (getUncompressedDbPaths ctx).map Ev.probe } with hs2
  obtain ⟨s1, hfs1, heq⟩ := findAndDecompress_found env (CACHE_DB_PATH ctx)
    (getCompressedDbPaths ctx) s2 p
    (by
      show (getCompressedDbPaths ctx).find?
        (fun q => (ensureCacheDir ctx s).fs.fileExists q) = some p
      simp only [ensureCacheDir_fs]
      exact hfind)
  have hread1 : s1.fs.read p = some d := by
    rw [hfs1]
    show (ensureCacheDir ctx s).fs.read p = some d
    rw [ensureCacheDir_fs]
    exact hread
  have hdec := decompressDatabase_ok env p (CACHE_DB_PATH ctx) s1 d hread1
    hcomplete hok hne
  rw [searchAndFetch, hnone]
  dsimp only
  rw [heq, hdec]
  refine ⟨rfl, ?_, ?_⟩
  · show Ev.decompressEv p (CACHE_DB_PATH ctx)
      ∈ (((s1.log (Ev.decompressEv p (CACHE_DB_PATH ctx))).write
          (CACHE_DB_PATH ctx) ⟨"", false⟩).write (CACHE_DB_PATH ctx)
          ⟨gunzip d.content, true⟩).trace
    simp [St.log, St.write]
  · show ((((s1.log (Ev.decompressEv p (CACHE_DB_PATH ctx))).write
        (CACHE_DB_PATH ctx) ⟨"", false⟩).write (CACHE_DB_PATH ctx)
        ⟨gunzip d.content, true⟩)).fs.read (CACHE_DB_PATH ctx)
      = some ⟨gunzip d.content, true⟩
    exact read_write_self _ _ _

/-- C4: with no explicit path and the cache missed (or `forceFresh` set),
the uncompressed candidate locations are probed in their fixed order and the
first existing one (`find?` over `getUncompressedDbPaths`) is copied into the
cache; only when none exists are the compressed candidates probed in their
fixed order, the first existing one being decompressed (`gunzip`) into the
cache; in either case `getDatabasePath` returns the cache path. -/
theorem getDatabasePath_search_order (ctx : Ctx) (env : Env)
    (responses : Nat → Resp) (opts : GetDbOptions) (s : St)
    (hdb : opts.databasePath = none)
    (hfresh : opts.forceFresh = true ∨
      s.fs.fileExists (CACHE_DB_PATH ctx) = false) :
    (∀ p d, (getUncompressedDbPaths ctx).find?
        (fun q => s.fs.fileExists q) = some p →
      s.fs.read p = some d → env.copyOk = true → p ≠ CACHE_DB_PATH ctx →
      (getDatabasePath ctx env responses opts s).fst
        = Except.ok (CACHE_DB_PATH ctx) ∧
      Ev.copyEv p (CACHE_DB_PATH ctx)
        ∈ ((getDatabasePath ctx env responses opts s).snd).trace ∧
      ((getDatabasePath ctx env responses opts s).snd).fs.read
        (CACHE_DB_PATH ctx) = some d) ∧
    ((∀ q ∈ getUncompressedDbPaths ctx, s.fs.fileExists q = false) →
      ∀ p d, (getCompressedDbPaths ctx).find?
        (fun q => s.fs.fileExists q) = some p →
      s.fs.read p = some d → d.complete = true → env.decompressOk = true →
      p ≠ CACHE_DB_PATH ctx →
      (getDatabasePath ctx env responses opts s).fst
        = Except.ok (CACHE_DB_PATH ctx) ∧
      Ev.decompressEv p (CACHE_DB_PATH ctx)
        ∈ ((getDatabasePath ctx env responses opts s).snd).trace ∧
      ((getDatabasePath ctx env responses opts s).snd).fs.read
        (CACHE_DB_PATH ctx) = some ⟨gunzip d.content, true⟩) := by
  obtain ⟨s4, hfs4, _, hbody⟩ := body_eq_search ctx env responses opts s hfresh
  have hrun : getDatabasePath ctx env responses opts s
      = prepareFailure (searchAndFetch ctx env responses s4) := by
    rw [getDatabasePath, hdb, hbody]
  constructor
  · intro p d hfind hread hok hne
    have hhit := searchAndFetch_copy_hit ctx env responses s4 p d
      (by rw [show (fun q => s4.fs.fileExists q)
        = (fun q => s.fs.fileExists q) by rw [hfs4]]; exact hfind)
      (by rw [hfs4]; exact hread) hok hne
    rw [hrun, prepareFailure_of_ok hhit.1]
    exact hhit
  · intro hun p d hfind hread hcomplete hok hne
    have hhit := searchAndFetch_decompress_hit ctx env responses s4 p d
      (fun q hq => by rw [hfs4]; exact hun q hq)
      (by rw [show (fun q => s4.fs.fileExists q)
        = (fun q => s.fs.fileExists q) by rw [hfs4]]; exact hfind)
      (by rw [hfs4]; exact hread) hcomplete hok hne
    rw [hrun, prepareFailure_of_ok hhit.1]
    exact hhit

/-- A filesystem holding one complete uncompressed database at the first
candidate location `join(DIRNAME, "..", "..", "db", "vpic.lite.db")`. -/
def c4St : St := ⟨⟨[("d/../../db/vpic.lite.db", ⟨"data", true⟩)]⟩, []⟩

theorem getDatabasePath_search_order_witness :
    (getDatabasePath c2Ctx cEnvOk cRespFail c2Opts c4St).fst
        = Except.ok (CACHE_DB_PATH c2Ctx) ∧
    Ev.copyEv "d/../../db/vpic.lite.db" (CACHE_DB_PATH c2Ctx)
        ∈ ((getDatabasePath c2Ctx cEnvOk cRespFail c2Opts c4St).snd).trace ∧
    ((getDatabasePath c2Ctx cEnvOk cRespFail c2Opts c4St).snd).fs.read
        (CACHE_DB_PATH c2Ctx) = some ⟨"data", true⟩ :=
  (getDatabasePath_search_order c2Ctx cEnvOk cRespFail c2Opts c4St rfl
      (Or.inr rfl)).1 "d/../../db/vpic.lite.db" ⟨"data", true⟩ rfl rfl rfl
    (by decide)

/-- Whether an event is an outgoing HTTP request of the download loop. -/
def isRequestEv : Ev → Bool
  | Ev.requestEv _ => true
  | _ => false

/-- Number of download requests recorded in a trace. -/
def downloadAttempts (t : List Ev) : Nat := (t.filter isRequestEv).length

lemma downloadAttempts_append (a b : List Ev) :
    downloadAttempts (a ++ b) = downloadAttempts a + downloadAttempts b := by
  simp [downloadAttempts, List.filter_append]

lemma downloadAttempts_probes (l : List String) :
    downloadAttempts (l.map Ev.probe) = 0 := by
  induction l with
  | nil => rfl
  | cons a t ih =>
    simp only [downloadAttempts, List.map_cons, List.filter_cons,
      isRequestEv] at ih ⊢
    exact ih

lemma downloadAttempts_ensure (ctx : Ctx) (s : St) :
    downloadAttempts (ensureCacheDir ctx s).trace
      = downloadAttempts s.trace := by
  rw [ensureCacheDir]
  split <;>
    simp [St.log, downloadAttempts, List.filter_append, List.filter_cons,
      isRequestEv]

lemma searchAndFetch_disabled (ctx : Ctx) (env : Env) (responses : Nat → Resp)
    (s : St)
    (hun : ∀ q ∈ getUncompressedDbPaths ctx, s.fs.fileExists q = false)
    (hco : ∀ q ∈ getCompressedDbPaths ctx, s.fs.fileExists q = false)
    (hdis : ctx.envDisableDbDownload = some "1") :
    searchAndFetch ctx env responses s
      = (Except.error dbDisabledMsg,
         { ensureCacheDir ctx s with
           trace := (ensureCacheDir ctx s).trace
             ++ (getUncompressedDbPaths ctx).map Ev.probe
             ++ (getCompressedDbPaths ctx).map Ev.probe }) := by
  have hnone1 := findAndCopy_none env (CACHE_DB_PATH ctx)
    (getUncompressedDbPaths ctx) (ensureCacheDir ctx s)
    (by simp only [ensureCacheDir_fs]; exact hun)
  rw [searchAndFetch, hnone1]
  dsimp only
  have hnone2 := findAndDecompress_none env (CACHE_DB_PATH ctx)
    (getCompressedDbPaths ctx)
    ({ ensureCacheDir ctx s with
       trace := (ensureCacheDir ctx s).trace
         ++ (getUncompressedDbPaths ctx).map Ev.probe })
    (fun q hq => by
      show (ensureCacheDir ctx s).fs.fileExists q = false
      rw [ensureCacheDir_fs]
      exact hco q hq)
  rw [hnone2]
  dsimp only
  rw [if_pos hdis]

/-- C5: if automatic download is disabled (`CORGI_DISABLE_DB_DOWNLOAD` set
to `"1"`) and no local database file exists at the cache path or any
candidate location, `getDatabasePath` fails with the infrastructure error
message instructing the caller to supply an explicit `databasePath`, and no
download request is issued. -/
theorem getDatabasePath_download_disabled (ctx : Ctx) (env : Env)
    (responses : Nat → Resp) (opts : GetDbOptions) (s : St)
    (hdb : opts.databasePath = none)
    (hcache : s.fs.fileExists (CACHE_DB_PATH ctx) = false)
    (hun : ∀ q ∈ getUncompressedDbPaths ctx, s.fs.fileExists q = false)
    (hco : ∀ q ∈ getCompressedDbPaths ctx, s.fs.fileExists q = false)
    (hdis : ctx.envDisableDbDownload = some "1") :
    (getDatabasePath ctx env responses opts s).fst
      = Except.error ("Failed to prepare database: " ++ dbDisabledMsg) ∧
    downloadAttempts ((getDatabasePath ctx env responses opts s).snd).trace
      = downloadAttempts s.trace := by
  obtain ⟨s4, hfs4, htr, hbody⟩ :=
    body_eq_search ctx env responses opts s (Or.inr hcache)
  have hsearch := searchAndFetch_disabled ctx env responses s4
    (fun q hq => by rw [hfs4]; exact hun q hq)
    (fun q hq => by rw [hfs4]; exact hco q hq) hdis
  have hrun : getDatabasePath ctx env responses opts s
      = prepareFailure (searchAndFetch ctx env responses s4) := by
    rw [getDatabasePath, hdb, hbody]
  rw [hrun, hsearch]
  have h1 : downloadAttempts s4.trace = downloadAttempts s.trace := by
    rcases htr with h | h
    · rw [h]
    · rw [h, downloadAttempts_append]
      have h2 : downloadAttempts [Ev.probe (CACHE_DB_PATH ctx)] = 0 := rfl
      omega
  constructor
  · rfl
  · show downloadAttempts ((ensureCacheDir ctx s4).trace
        ++ (getUncompressedDbPaths ctx).map Ev.probe
        ++ (getCompressedDbPaths ctx).map Ev.probe) = downloadAttempts s.trace
    rw [downloadAttempts_append, downloadAttempts_append,
      downloadAttempts_probes, downloadAttempts_probes,
      downloadAttempts_ensure, h1]
    omega

/-- Context with the download disabled via `CORGI_DISABLE_DB_DOWNLOAD=1`. -/
def cDisCtx : Ctx := ⟨"h", "d", "c", none, none, some "1"⟩

theorem getDatabasePath_download_disabled_witness :
    (getDatabasePath cDisCtx cEnvOk cRespFail c2Opts st0).fst
      = Except.error ("Failed to prepare database: " ++ dbDisabledMsg) ∧
    downloadAttempts
        ((getDatabasePath cDisCtx cEnvOk cRespFail c2Opts st0).snd).trace
      = downloadAttempts st0.trace :=
  getDatabasePath_download_disabled cDisCtx cEnvOk cRespFail c2Opts st0 rfl
    rfl (by decide) (by decide) rfl

/-- C6: without an explicit `databasePath` and without `forceFresh`, when the
decompressed cache file already exists at the well-known cache location, that
cached path is returned immediately and the state gains only the single
existence probe of the cache path — no candidate probe, copy, decompression,
`mkdir` or download occurs. -/
theorem getDatabasePath_cache_hit (ctx : Ctx) (env : Env)
    (responses : Nat → Resp) (opts : GetDbOptions) (s : St)
    (hdb : opts.databasePath = none) (hff : opts.forceFresh = false)
    (hcache : s.fs.fileExists (CACHE_DB_PATH ctx) = true) :
    getDatabasePath ctx env responses opts s
      = (Except.ok (CACHE_DB_PATH ctx),
         s.log (Ev.probe (CACHE_DB_PATH ctx))) := by
  rw [getDatabasePath, hdb]
  dsimp only
  rw [getDatabasePathBody, hff]
  rw [if_neg (by simp)]
  rw [hcache, if_pos rfl]
  exact prepareFailure_of_ok rfl

/-- A filesystem holding the prepared database at the cache path. -/
def c6St : St := ⟨⟨[("h/.corgi-cache/vpic.lite.db", ⟨"data", true⟩)]⟩, []⟩

theorem getDatabasePath_cache_hit_witness :
    getDatabasePath c2Ctx cEnvOk cRespFail c2Opts c6St
      = (Except.ok (CACHE_DB_PATH c2Ctx),
         c6St.log (Ev.probe (CACHE_DB_PATH c2Ctx))) :=
  getDatabasePath_cache_hit c2Ctx cEnvOk cRespFail c2Opts c6St rfl rfl rfl

/-- Options supplying the empty string as an explicit database path. -/
def c7Opts : GetDbOptions := ⟨false, some ""⟩

/-- C7 counterexample: `if (options.databasePath)` tests JavaScript
truthiness, so a supplied empty-string `databasePath` is NOT returned
unchanged: the call falls through to the cache lookup and returns the cache
path instead of the supplied `""`. -/
theorem explicit_empty_path_counterexample :
    (getDatabasePath c2Ctx cEnvOk cRespFail c7Opts c6St).fst
        = Except.ok "h/.corgi-cache/vpic.lite.db" ∧
    ("h/.corgi-cache/vpic.lite.db" : String) ≠ "" := by
  constructor
  · rfl
  · decide

/-- C7 (amended): for every call where `options.databasePath` is supplied
and non-empty, that exact path is returned unchanged and unchecked — no
probe, copy, decompression or download, the state is untouched — regardless
of any other option including `forceFresh`.  (A supplied empty string is
falsy in the source's truthiness test and falls through to the search.) -/
theorem getDatabasePath_explicit_path (ctx : Ctx) (env : Env)
    (responses : Nat → Resp) (opts : GetDbOptions) (s : St) (p : String)
    (hdb : opts.databasePath = some p) (hne : p ≠ "") :
    getDatabasePath ctx env responses opts s = (Except.ok p, s) := by
  rw [getDatabasePath, hdb]
  dsimp only
  rw [if_neg hne]

/-- Options with an explicit path and `forceFresh` set. -/
def c7aOpts : GetDbOptions := ⟨true, some "/tmp/custom.db"⟩

theorem getDatabasePath_explicit_path_witness :
    getDatabasePath c2Ctx cEnvOk cRespFail c7aOpts st0
      = (Except.ok "/tmp/custom.db", st0) :=
  getDatabasePath_explicit_path c2Ctx cEnvOk cRespFail c7aOpts st0
    "/tmp/custom.db" rfl (by decide)

lemma searchAndFetch_ok_is_cache (ctx : Ctx) (env : Env)
    (responses : Nat → Resp) (s : St) (v : String) (s2 : St)
    (h : searchAndFetch ctx env responses s = (Except.ok v, s2)) :
    v = CACHE_DB_PATH ctx := by
  rw [searchAndFetch] at h
  split at h
  · simp at h
    exact h.1.symm
  · simp at h
  · split at h
    · simp at h
      exact h.1.symm
    · simp at h
    · split at h
      · simp at h
      · split at h
        · simp at h
          exact h.1.symm
        · simp at h

lemma body_ok_is_cache (ctx : Ctx) (env : Env) (responses : Nat → Resp)
    (opts : GetDbOptions) (s : St) (v : String) (s2 : St)
    (h : getDatabasePathBody ctx env responses opts s = (Except.ok v, s2)) :
    v = CACHE_DB_PATH ctx := by
  rw [getDatabasePathBody] at h
  split at h
  · exact searchAndFetch_ok_is_cache ctx env responses s v s2 h
  · split at h
    · simp at h
      exact h.1.symm
    · exact searchAndFetch_ok_is_cache ctx env responses _ v s2 h

/-- C10: whenever `getDatabasePath` is called without `options.databasePath`
and returns successfully, the returned path is exactly the fixed cache path
`join(homedir(), ".corgi-cache", "vpic.lite.db")`, no matter which branch
produced it (existing cache, copied uncompressed hit, decompressed
compressed hit, or download). -/
theorem getDatabasePath_ok_returns_cache (ctx : Ctx) (env : Env)
    (responses : Nat → Resp) (opts : GetDbOptions) (s : St) (r : String)
    (s2 : St) (hdb : opts.databasePath = none)
    (h : getDatabasePath ctx env responses opts s = (Except.ok r, s2)) :
    r = CACHE_DB_PATH ctx := by
  rw [getDatabasePath, hdb] at h
  dsimp only at h
  rcases hb : getDatabasePathBody ctx env responses opts s with ⟨rb, sb⟩
  rw [hb] at h
  cases rb with
  | error e => simp [prepareFailure] at h
  | ok v =>
    simp only [prepareFailure] at h
    simp at h
    rw [← h.1]
    exact body_ok_is_cache ctx env responses opts s v sb hb

theorem getDatabasePath_ok_returns_cache_witness :
    ("h/.corgi-cache/vpic.lite.db" : String) = CACHE_DB_PATH c2Ctx :=
  getDatabasePath_ok_returns_cache c2Ctx cEnvOk cRespFail c2Opts c6St
    "h/.corgi-cache/vpic.lite.db"
    (c6St.log (Ev.probe (CACHE_DB_PATH c2Ctx))) rfl rfl

end Corgi
